/-
  Verification development for the multi-agent discussion system.

  Shallow embedding of the JSONL discussion log (lib/discussion.js), the
  message model (lib/message.js), the child-process invoker result logic
  (lib/claude-client.js) and the agent runtime state machine
  (lib/agent-base.js).  Pure functions are translated directly; stateful
  code becomes explicit state passing; the filesystem is modelled as a map
  from paths to parsed log contents; wall-clock time is an explicit
  natural-number parameter threaded through the operations.
-/
import Mathlib

namespace MultiAgent

/-- JavaScript `x || d` where `x` is an optional number: `undefined` and `0`
are falsy, so both fall back to the default `d`. -/
def jsOr (o : Option Nat) (d : Nat) : Nat :=
  match o with
  | none => d
  | some n => if n = 0 then d else n

/-- One record of a discussion log (lib/message.js).  Fields absent on a
given record type are `none` / `[]`.  The JS field `from` is called
`sender` here because `from` is reserved in Lean. -/
structure Message where
  seq : Nat := 0
  ts : String := ""
  sender : String := ""
  type : String := ""
  round : Option Nat := none
  topic : Option String := none
  participants : List String := []
  target : Option String := none
  opinion : Option String := none
  content : Option String := none
  decision : Option String := none
deriving DecidableEq, Repr

/-- `messages.filter(m => m.type === MESSAGE_TYPES.RESPONSE)` as used by
`Discussion.append` and `Discussion.getStatus`. -/
def responsesOf (messages : List Message) : List Message :=
  messages.filter (fun m => m.type == "response")

/-- Round assignment performed inside `Discussion.append`: a `followup`
without a caller-supplied round gets
`Math.max(...responses.map(r => r.round || 0)) + 1` (with `0` when there
are no responses); any other record keeps its round untouched. -/
def assignedRound (messages : List Message) (data : Message) : Option Nat :=
  let responses := responsesOf messages
  if data.type == "followup" && data.round == none then
    let highestRound :=
      if responses.length > 0 then (responses.map (fun r => jsOr r.round 0)).foldl max 0
      else 0
    some (highestRound + 1)
  else
    data.round

/-- The record actually written by `Discussion.append`: the input data with
the assigned round, `seq = lastSeq + 1` and a fresh timestamp spread in. -/
def appendStamp (messages : List Message) (data : Message) (ts : String) : Message :=
  let lastSeq :=
    match messages.getLast? with
    | some m => m.seq
    | none => 0
  { data with round := assignedRound messages data, seq := lastSeq + 1, ts := ts }

/-- C1: a `followup` appended without a round is stored with round equal to
the maximum round over all existing `response` records (a response without
a round counting as 0, and the maximum of no responses being 0) plus one; a
caller-supplied round is kept unchanged. -/
theorem followup_round_assignment (messages : List Message) (data : Message) (ts : String) :
    (data.type = "followup" → data.round = none →
      (appendStamp messages data ts).round =
        some (((responsesOf messages).map (fun r => jsOr r.round 0)).foldl max 0 + 1)) ∧
    (∀ r : Nat, data.round = some r → (appendStamp messages data ts).round = some r) := by
  constructor
  · intro hty hrd
    simp only [appendStamp, assignedRound, hty, hrd]
    cases h : responsesOf messages with
    | nil => simp [h]
    | cons a l => simp [h]
  · intro r hrd
    simp [appendStamp, assignedRound, hrd]

/-- Witness for C1 at concrete inputs: a round-less followup over a log whose
responses reach round 2 is stamped with round 3, and a record carrying
round 7 keeps it. -/
theorem followup_round_assignment_witness :
    (appendStamp [{ type := "start", seq := 1 }, { type := "response", seq := 2, round := some 2 }]
        { type := "followup" } "t").round = some 3 ∧
    (appendStamp [] { type := "response", round := some 7 } "t").round = some 7 := by
  refine ⟨?_, ?_⟩
  · have h := (followup_round_assignment
      [{ type := "start", seq := 1 }, { type := "response", seq := 2, round := some 2 }]
      { type := "followup" } "t").1 rfl rfl
    simpa using h
  · exact (followup_round_assignment [] { type := "response", round := some 7 } "t").2 7 rfl

/-- The filesystem as seen through the JSONL codec: each path either holds a
parsed list of records or does not exist.  (The codec round-trips:
`parse(serialize(m)) == m`, so a file written as serialized lines is read
back as the same record list.) -/
def FileSys : Type := String → Option (List Message)

/-- `Discussion.getFilePath`: `<baseDir>/<id>.jsonl`. -/
def getFilePath (baseDir discussionId : String) : String :=
  baseDir ++ "/" ++ discussionId ++ ".jsonl"

/-- `createStartMessage(1, topic, participants, context)` without the context
mapping (no claim depends on it); `ts` is the wall-clock timestamp. -/
def createStartMessage (seq : Nat) (topic : String) (participants : List String)
    (ts : String) : Message :=
  { seq := seq, ts := ts, sender := "user", type := "start",
    topic := some topic, participants := participants }

/-- `fs.writeFileSync(path, content)`: sets the path's content whether or not
the path already exists (create-or-truncate, never exclusive). -/
def writeFileSync (fs : FileSys) (path : String) (content : List Message) : FileSys :=
  fun p => if p = path then some content else fs p

/-- `Discussion.create(topic, participants)`: writes the single start record
as the whole content of `<id>.jsonl`.  The timestamp-derived id is an
explicit parameter.  (The sibling `<id>-result.md` markdown file it also
refreshes is outside the record store modelled here.) -/
def createDiscussion (fs : FileSys) (baseDir discussionId : String) (topic : String)
    (participants : List String) (ts : String) : FileSys × Message :=
  let message := createStartMessage 1 topic participants ts
  (writeFileSync fs (getFilePath baseDir discussionId) [message], message)

/-- A concrete filesystem that already holds a log for id `"1234"`. -/
def occupiedFs : FileSys :=
  fun p => if p = getFilePath "discussions" "1234" then some [{ type := "end", seq := 1 }] else none

/-- Counterexample to C2: `create` does not fail when a log file for the
generated id already exists — it silently replaces the old content
(`fs.writeFileSync` truncates; no exclusive-create flag is used). -/
theorem create_overwrites_cex :
    occupiedFs (getFilePath "discussions" "1234") = some [{ type := "end", seq := 1 }] ∧
    (createDiscussion occupiedFs "discussions" "1234" "topic" ["claude", "codex"] "t").1
        (getFilePath "discussions" "1234") =
      some [createStartMessage 1 "topic" ["claude", "codex"] "t"] ∧
    ¬ (createDiscussion occupiedFs "discussions" "1234" "topic" ["claude", "codex"] "t").1
        (getFilePath "discussions" "1234") = some [{ type := "end", seq := 1 }] := by
  refine ⟨rfl, rfl, ?_⟩
  decide

/-- C2 as amended: `create` always writes exactly one start record as the
sole content of the log file for the generated id, whether or not a file
already existed there (an existing file is overwritten, not a failure). -/
theorem create_writes_sole_start (fs : FileSys) (baseDir discussionId topic : String)
    (participants : List String) (ts : String) :
    (createDiscussion fs baseDir discussionId topic participants ts).1
        (getFilePath baseDir discussionId) =
      some [createStartMessage 1 topic participants ts] ∧
    (createDiscussion fs baseDir discussionId topic participants ts).2 =
      createStartMessage 1 topic participants ts := by
  constructor
  · simp [createDiscussion, writeFileSync]
  · rfl

/-- The record returned by `Discussion.getStatus` (the derived-status fields
the claims mention; `exists` is reserved in Lean, hence `exists_`). -/
structure DStatus where
  exists_ : Bool := false
  topic : Option String := none
  participants : List String := []
  status : String := ""
  messageCount : Nat := 0
  currentRound : Nat := 0
  startTime : Option String := none
  endTime : Option String := none
  decision : Option String := none
deriving DecidableEq, Repr

/-- `Discussion.getStatus` on the parsed record list: first `start` and first
`end` records drive the derived fields; `currentRound` is
`Math.max(0, ...responses.map(m => m.round || 0))` over all responses. -/
def getStatus (messages : List Message) : DStatus :=
  if messages.isEmpty then {} else
    let startMsg := messages.find? (fun m => m.type == "start")
    let endMsg := messages.find? (fun m => m.type == "end")
    let responses := responsesOf messages
    { exists_ := true,
      topic := startMsg.bind (fun m => m.topic),
      participants := (startMsg.map (fun m => m.participants)).getD [],
      status := if endMsg.isSome then "ended" else "active",
      messageCount := messages.length,
      currentRound := (responses.map (fun m => jsOr m.round 0)).foldl max 0,
      startTime := startMsg.map (fun m => m.ts),
      endTime := endMsg.map (fun m => m.ts),
      decision := endMsg.bind (fun m => m.decision) }

/-- Counterexample to C3: a `response` appended after the `end` record still
changes the status derivation — `currentRound` counts it. -/
theorem status_after_end_cex :
    (getStatus [{ type := "start", seq := 1, topic := some "t" }, { type := "end", seq := 2 }]).currentRound = 0 ∧
    (getStatus ([{ type := "start", seq := 1, topic := some "t" }, { type := "end", seq := 2 }] ++
        [{ type := "response", seq := 3, sender := "claude", round := some 1 }])).currentRound = 1 := by
  constructor <;> decide

theorem find_append_of_eq_some {p : Message → Bool} {l : List Message} {m : Message}
    (l₂ : List Message) (h : l.find? p = some m) : (l ++ l₂).find? p = some m := by
  induction l with
  | nil => simp [List.find?] at h
  | cons a l ih =>
    by_cases hp : p a
    · simp [List.find?, hp] at h ⊢
      exact h
    · simp only [List.cons_append, List.find?_cons_of_neg _ hp] at h ⊢
      exact ih h

theorem le_foldl_max (l : List Nat) (a : Nat) : a ≤ l.foldl max a := by
  induction l generalizing a with
  | nil => exact Nat.le_refl a
  | cons b l ih => exact Nat.le_trans (Nat.le_max_left a b) (ih (max a b))

/-- C3 as amended: once the log contains a `start` and an `end` record,
records appended afterwards never change the derived topic, participants,
status flag, end timestamp or decision — but `currentRound` still counts
`response` records appended after the end, so it can only stay or grow and
is not stable (post-end records are not ignored by this reader). -/
theorem status_stable_after_end (messages suffix : List Message)
    (hs : (messages.find? (fun m => m.type == "start")).isSome)
    (he : (messages.find? (fun m => m.type == "end")).isSome) :
    (getStatus (messages ++ suffix)).topic = (getStatus messages).topic ∧
    (getStatus (messages ++ suffix)).participants = (getStatus messages).participants ∧
    (getStatus (messages ++ suffix)).status = "ended" ∧
    (getStatus messages).status = "ended" ∧
    (getStatus (messages ++ suffix)).endTime = (getStatus messages).endTime ∧
    (getStatus (messages ++ suffix)).decision = (getStatus messages).decision ∧
    (getStatus messages).currentRound ≤ (getStatus (messages ++ suffix)).currentRound := by
  obtain ⟨ms, hms⟩ := Option.isSome_iff_exists.mp hs
  obtain ⟨me, hme⟩ := Option.isSome_iff_exists.mp he
  have hms' := find_append_of_eq_some suffix hms
  have hme' := find_append_of_eq_some suffix hme
  have hne : ¬ messages.isEmpty := by
    intro h
    rw [List.isEmpty_iff.mp h] at hms
    simp [List.find?] at hms
  have hne' : ¬ (messages ++ suffix).isEmpty := by
    intro h
    rcases List.append_eq_nil.mp (List.isEmpty_iff.mp h) with ⟨h1, _⟩
    exact hne (by simp [h1])
  refine ⟨?_, ?_, ?_, ?_, ?_, ?_, ?_⟩ <;>
    simp only [getStatus, if_neg hne, if_neg hne', hms, hme, hms', hme', Option.isSome_some,
      if_pos]
  all_goals first
    | rfl
    | (simp only [responsesOf, List.filter_append, List.map_append, List.foldl_append]
       exact le_foldl_max _ _)

/-- Witness for the amended C3 at a concrete ended log with a post-end
response appended. -/
theorem status_stable_after_end_witness :
    (getStatus ([{ type := "start", seq := 1, topic := some "t" }, { type := "end", seq := 2 }] ++
        [{ type := "response", seq := 3, sender := "claude", round := some 4 }])).status = "ended" ∧
    (getStatus [{ type := "start", seq := 1, topic := some "t" }, { type := "end", seq := 2 }]).currentRound ≤
      (getStatus ([{ type := "start", seq := 1, topic := some "t" }, { type := "end", seq := 2 }] ++
        [{ type := "response", seq := 3, sender := "claude", round := some 4 }])).currentRound := by
  have h := status_stable_after_end
    [{ type := "start", seq := 1, topic := some "t" }, { type := "end", seq := 2 }]
    [{ type := "response", seq := 3, sender := "claude", round := some 4 }]
    (by decide) (by decide)
  exact ⟨h.2.2.1, h.2.2.2.2.2.2⟩

/-- Result of a child-process invocation (lib/claude-client.js):
`{ok: true, output}` or `{ok: false, error}`. -/
inductive CallResult where
  | ok (output : String)
  | err (error : String)
deriving DecidableEq, Repr

/-- Whitespace as JavaScript's `\s` / `trim()` see it (ASCII range: space,
tab, line feed, carriage return, vertical tab, form feed). -/
def jsSpace (c : Char) : Bool :=
  c = ' ' || c = '\t' || c = '\n' || c = '\r' || c = '\x0b' || c = '\x0c'

/-- JavaScript `String.prototype.trim()`: strip whitespace from both ends. -/
def jsTrim (s : String) : String :=
  String.mk (((s.data.dropWhile jsSpace).reverse.dropWhile jsSpace).reverse)

/-- The error string `Process exited with code <code>`; a child killed by a
signal reports `code = null`. -/
def exitCodeMsg (code : Option Int) : String :=
  "Process exited with code " ++ (match code with | some c => toString c | none => "null")

/-- The decision taken by `callClaude`'s `close` handler: `Timeout` once the
timeout fired, success only for exit code 0 with stdout non-blank after
trimming (the output is the trimmed stdout), otherwise the trimmed stderr
or an exit-code message. -/
def closeResult (timedOut : Bool) (code : Option Int) (stdout stderr : String) : CallResult :=
  if timedOut then .err "Timeout"
  else if code = some 0 ∧ jsTrim stdout ≠ "" then .ok (jsTrim stdout)
  else .err (if jsTrim stderr ≠ "" then jsTrim stderr else exitCodeMsg code)

/-- The `resolveOnce` guard: folding every attempted resolution over the
`settled` flag; only the first attempt produces the promise's value. -/
def settleAll (attempts : List CallResult) : Option CallResult :=
  attempts.foldl (fun s r => if s.isSome then s else some r) none

theorem settleAll_isSome (attempts : List CallResult) (s : CallResult) :
    (attempts.foldl (fun s r => if s.isSome then s else some r) (some s)) = some s := by
  induction attempts with
  | nil => rfl
  | cons a l ih => simpa using ih

/-- Counterexample to C4: a child that exits 0 with non-empty but
whitespace-only stdout is reported as a failure carrying stderr — the claim
(as stated over raw stdout) predicts `{ok: true, output: "\n"}`. -/
theorem invoker_result_cex :
    "\n" ≠ "" ∧
    closeResult false (some 0) "\n" "boom" = .err "boom" ∧
    closeResult false (some 0) "\n" "boom" ≠ .ok "\n" := by
  refine ⟨by decide, by decide, by decide⟩

/-- C4 as amended: the invoker resolves exactly once (the first resolution
wins); the result is `Timeout` whenever the timeout fired before
completion, success with the trimmed stdout when the child exited 0 and
its stdout is non-empty after trimming, and otherwise a failure carrying
the trimmed stderr or an exit-code message — in particular a child that
writes nothing (or only whitespace) to stdout and exits 0 is a failure. -/
theorem invoker_result_spec (timedOut : Bool) (code : Option Int) (stdout stderr : String) :
    (timedOut = true → closeResult timedOut code stdout stderr = .err "Timeout") ∧
    (timedOut = false → code = some 0 → jsTrim stdout ≠ "" →
      closeResult timedOut code stdout stderr = .ok (jsTrim stdout)) ∧
    (timedOut = false → jsTrim stdout = "" →
      closeResult timedOut code stdout stderr =
        .err (if jsTrim stderr ≠ "" then jsTrim stderr else exitCodeMsg code)) ∧
    (timedOut = false → code ≠ some 0 →
      closeResult timedOut code stdout stderr =
        .err (if jsTrim stderr ≠ "" then jsTrim stderr else exitCodeMsg code)) ∧
    (∀ (first : CallResult) (later : List CallResult),
      settleAll (first :: later) = some first) := by
  refine ⟨?_, ?_, ?_, ?_, ?_⟩
  · intro h; simp [closeResult, h]
  · intro h h0 hs; simp [closeResult, h, h0, hs]
  · intro h hs; simp [closeResult, h, hs]
  · intro h h0
    simp only [closeResult, h, if_false, Bool.false_eq_true]
    rw [if_neg (by simp [h0])]
  · intro first later
    simp only [settleAll, List.foldl_cons, Option.isSome_none, Bool.false_eq_true, if_false]
    exact settleAll_isSome later first

/-- Witness for the amended C4 at concrete inputs: a timed-out run, a clean
run, an empty-stdout run with exit 0, and a double resolution. -/
theorem invoker_result_spec_witness :
    closeResult true (some 0) "out" "" = .err "Timeout" ∧
    closeResult false (some 0) " out \n" "" = .ok "out" ∧
    closeResult false (some 0) "" "oops" = .err "oops" ∧
    settleAll [.err "Timeout", .ok "late"] = some (.err "Timeout") := by
  refine ⟨?_, ?_, ?_, ?_⟩
  · exact (invoker_result_spec true (some 0) "out" "").1 rfl
  · have h := (invoker_result_spec false (some 0) " out \n" "").2.1 rfl rfl (by decide)
    simpa using h
  · have h := (invoker_result_spec false (some 0) "" "oops").2.2.1 rfl (by decide)
    simpa using h
  · exact (invoker_result_spec false none "" "").2.2.2.2 (.err "Timeout") [.ok "late"]

/-- ASCII decimal digit test (`\d` of the confidence regex). -/
def isDigitChar (c : Char) : Bool :=
  '0' ≤ c && c ≤ '9'

/-- The separator class `[:\s]` of the confidence regex. -/
def confSep (c : Char) : Bool :=
  c = ':' || jsSpace c

/-- Case-insensitive literal match: does `cs` start with `word` (compared
lowercased, as the regex `i` flag does), and if so, what remains? -/
def matchCI : List Char → List Char → Option (List Char)
  | [], cs => some cs
  | _ :: _, [] => none
  | w :: ws, c :: cs => if c.toLower = w.toLower then matchCI ws cs else none

/-- Attempt the regex `confidence[:\s]+(\d+(?:\.\d+)?)` (case-insensitive) at
the head of `cs`, returning the capture group split at the decimal point
(integer digits, fraction digits); all three pieces are greedy and none can
backtrack into another, so maximal munch is exact.  A dot not followed by a
digit is left unconsumed (the optional fraction group fails). -/
def confMatchAt (cs : List Char) : Option (List Char × List Char) :=
  match matchCI "confidence".data cs with
  | none => none
  | some rest =>
    let seps := rest.takeWhile confSep
    let rest2 := rest.dropWhile confSep
    if seps.isEmpty then none
    else
      let ds := rest2.takeWhile isDigitChar
      let rest3 := rest2.dropWhile isDigitChar
      if ds.isEmpty then none
      else
        match rest3 with
        | '.' :: r4 =>
          let fs := r4.takeWhile isDigitChar
          if fs.isEmpty then some (ds, []) else some (ds, fs)
        | _ => some (ds, [])

/-- `response.match(/confidence[:\s]+(\d+(?:\.\d+)?)/i)`: try the pattern at
every position, leftmost match wins. -/
def confSearch : List Char → Option (List Char × List Char)
  | [] => none
  | c :: cs =>
    match confMatchAt (c :: cs) with
    | some v => some v
    | none => confSearch cs

/-- The natural number denoted by a digit string. -/
def natOfDigits (ds : List Char) : Nat :=
  ds.foldl (fun acc c => 10 * acc + (c.toNat - '0'.toNat)) 0

/-- `parseFloat` on the regex capture: integer part plus decimal fraction. -/
def ratOfDigits (intDs fracDs : List Char) : ℚ :=
  (natOfDigits intDs : ℚ) + (natOfDigits fracDs : ℚ) / ((10 : ℚ) ^ fracDs.length)

/-- The confidence computed by `parseClaudeResponse`: the matched number if
any (divided by 100 when it exceeds 1 — percentages), else the default
0.7.  No clamping is performed. -/
def parseConfidence (response : String) : ℚ :=
  match confSearch response.data with
  | none => 7 / 10
  | some (ds, fs) =>
    let c := ratOfDigits ds fs
    if c > 1 then c / 100 else c

/-- C5 exhibited on the failing input: the body `"confidence: 250"` parses to
confidence 5/2, which exceeds 1 — the code never clamps to [0,1], although
both the spec and the `Message` JSDoc (`confidence (0-1)`) require it. -/
theorem confidence_not_clamped :
    parseConfidence "confidence: 250" = 5 / 2 ∧
    ¬ parseConfidence "confidence: 250" ≤ 1 ∧
    parseConfidence "no marker here" = 7 / 10 := by
  have h1 : confSearch "confidence: 250".data = some (['2', '5', '0'], []) := by decide
  have h2 : confSearch "no marker here".data = none := by decide
  have h3 : ratOfDigits ['2', '5', '0'] [] = 250 := by
    have ha : natOfDigits ['2', '5', '0'] = 250 := by decide
    have hb : natOfDigits [] = 0 := by decide
    simp [ratOfDigits, ha, hb]
  refine ⟨?_, ?_, ?_⟩
  · simp only [parseConfidence, h1, h3]
    norm_num
  · simp only [parseConfidence, h1, h3]
    norm_num
  · simp [parseConfidence, h2]

/-- First element of `list.sort((a, b) => b.seq - a.seq)[0]`: the earliest
element carrying the maximal `seq` (JS `Array.prototype.sort` is stable, so
ties keep original order and the first of them wins). -/
def maxSeqFirst : List Message → Option Message
  | [] => none
  | m :: ms =>
    match maxSeqFirst ms with
    | none => some m
    | some m' => if m'.seq > m.seq then some m' else some m

/-- `AgentBase.isFollowupTargetedToMe`: `!message?.target || message.target
=== this.name` — an absent target and (being falsy in JS) an empty-string
target both count as broadcast. -/
def isFollowupTargetedToMe (name : String) (m : Message) : Bool :=
  match m.target with
  | none => true
  | some t => t = "" || t = name

/-- The sender set `responsesByRound.get(round)` as a deduplicated list (JS
`Set` iteration order = first-insertion order): senders of the responses
whose `r.round || 1` equals `round`. -/
def roundBucket (responses : List Message) (round : Nat) : List String :=
  ((responses.filter (fun r => jsOr r.round 1 == round)).map (fun r => r.sender)).dedup

/-- `AgentBase.shouldRespondInRound` (lib/agent-base.js 252-347), with the
discussion's participant list standing in for `status.participants`
(`status.currentRound` is read by the source but never used).  Returns the
round to respond in together with the trigger message, or `none`. -/
def shouldRespondInRound (name : String) (participants : List String)
    (messages : List Message) : Option (Nat × Message) :=
  let maxRounds := 5
  let responses := responsesOf messages
  let highestRound := (responses.map (fun r => jsOr r.round 1)).foldl max 0
  let latestFollowupAny := maxSeqFirst (messages.filter (fun m => m.type == "followup"))
  let suppressed :=
    match latestFollowupAny with
    | some m =>
      match m.target with
      | some t => t ≠ "" && t ≠ name
      | none => false
    | none => false
  if suppressed then none
  else
    let latestFollowup := maxSeqFirst (messages.filter
      (fun m => m.type == "followup" && isFollowupTargetedToMe name m))
    let followupCandidate : Option (Nat × Message) :=
      match latestFollowup with
      | none => none
      | some f =>
        let followupRound := jsOr f.round (highestRound + 1)
        if (roundBucket responses followupRound).contains name then none
        else some (followupRound, f)
    match followupCandidate with
    | some c => some c
    | none =>
      let respondedInHighestRound := (roundBucket responses highestRound).contains name
      if highestRound = 0 then
        match messages.find? (fun m => m.type == "start") with
        | some s => some (1, s)
        | none => none
      else if ¬ respondedInHighestRound then
        let roundResponses := roundBucket responses highestRound
        let allResponded := participants.all (fun p => roundResponses.contains p)
        if allResponded || roundResponses.length ≥ participants.length - 1 then
          match maxSeqFirst (responses.filter (fun r => r.round == some highestRound)) with
          | some lastResponse =>
            if highestRound < maxRounds then some (highestRound, lastResponse) else none
          | none => none
        else none
      else
        let allResponded := participants.all
          (fun p => (roundBucket responses highestRound).contains p)
        if allResponded && highestRound < maxRounds then
          match maxSeqFirst (responses.filter (fun r => r.round == some highestRound)) with
          | some lastResponse => some (highestRound + 1, lastResponse)
          | none => none
        else none

/-- C7: when the latest followup in the history carries a target naming a
different agent (a non-empty name other than ours), this agent's turn
decision returns null — only the targeted agent can be offered that
followup. -/
theorem targeted_followup_suppression (name : String) (participants : List String)
    (messages : List Message) (m : Message) (t : String)
    (hlatest : maxSeqFirst (messages.filter (fun m => m.type == "followup")) = some m)
    (htarget : m.target = some t) (hne : t ≠ "") (hnot : t ≠ name) :
    shouldRespondInRound name participants messages = none := by
  simp only [shouldRespondInRound, hlatest, htarget]
  rw [if_pos]
  simp [hne, hnot]

/-- Witness for C7: a followup targeted at `"claude"` silences `"codex"`. -/
theorem targeted_followup_suppression_witness :
    shouldRespondInRound "codex" ["claude", "codex"]
      [{ type := "start", seq := 1, topic := some "t" },
       { type := "followup", seq := 2, target := some "claude" }] = none := by
  exact targeted_followup_suppression "codex" ["claude", "codex"]
    [{ type := "start", seq := 1, topic := some "t" },
     { type := "followup", seq := 2, target := some "claude" }]
    { type := "followup", seq := 2, target := some "claude" } "claude"
    (by decide) rfl (by decide) (by decide)

/-- A history in which both participants have responded through round 5 (the
round cap) and a broadcast followup without a stored round arrives last. -/
def capHistory : List Message :=
  [{ type := "start", seq := 1, topic := some "t" },
   { type := "response", seq := 2, sender := "claude", round := some 1 },
   { type := "response", seq := 3, sender := "codex", round := some 1 },
   { type := "response", seq := 4, sender := "claude", round := some 2 },
   { type := "response", seq := 5, sender := "codex", round := some 2 },
   { type := "response", seq := 6, sender := "claude", round := some 3 },
   { type := "response", seq := 7, sender := "codex", round := some 3 },
   { type := "response", seq := 8, sender := "claude", round := some 4 },
   { type := "response", seq := 9, sender := "codex", round := some 4 },
   { type := "response", seq := 10, sender := "claude", round := some 5 },
   { type := "response", seq := 11, sender := "codex", round := some 5 },
   { type := "followup", seq := 12 }]

/-- C10: the followup branch of the turn decision bypasses the `maxRounds = 5`
cap — after all participants completed round 5, a broadcast followup makes
`shouldRespondInRound` offer round 6 — whereas on any history without
followup records every offered round is at most `maxRounds`. -/
theorem followup_branch_ignores_round_cap :
    (shouldRespondInRound "claude" ["claude", "codex"] capHistory =
        some (6, { type := "followup", seq := 12 }) ∧ 6 > 5) ∧
    (∀ (name : String) (participants : List String) (messages : List Message),
      messages.filter (fun m => m.type == "followup") = [] →
      ∀ r trig, shouldRespondInRound name participants messages = some (r, trig) → r ≤ 5) := by
  constructor
  · exact ⟨by decide, by decide⟩
  · intro name participants messages hnf r trig h
    have hconj : messages.filter
        (fun m => m.type == "followup" && isFollowupTargetedToMe name m) = [] := by
      rw [List.filter_eq_nil_iff] at hnf ⊢
      intro a ha
      simp only [Bool.and_eq_true, not_and]
      intro hty
      exact absurd hty (hnf a ha)
    simp only [shouldRespondInRound, hnf, hconj, maxSeqFirst] at h
    repeat' split at h
    all_goals simp_all
    all_goals omega

/-- Witness for C10's universally quantified half: over a followup-free
one-round history the offered round respects the cap. -/
theorem followup_branch_ignores_round_cap_witness :
    ∀ r trig, shouldRespondInRound "claude" ["claude", "codex"]
        [{ type := "start", seq := 1, topic := some "t" }] = some (r, trig) → r ≤ 5 := by
  exact (followup_branch_ignores_round_cap).2 "claude" ["claude", "codex"]
    [{ type := "start", seq := 1, topic := some "t" }] (by decide)

/-- Association-list lookup with a default (`map.get(k) || d` / `?? d`). -/
def alGet (m : List (String × Nat)) (k : String) (d : Nat) : Nat :=
  match m.find? (fun e => e.1 == k) with
  | some e => e.2
  | none => d

/-- Association-list lookup of a set of rounds (`respondedRounds.get(id)`,
with `new Set()` as the default). -/
def alGetRounds (m : List (String × List Nat)) (k : String) : List Nat :=
  match m.find? (fun e => e.1 == k) with
  | some e => e.2
  | none => []

/-- `map.set(k, v)` on an association list. -/
def alSet (m : List (String × Nat)) (k : String) (v : Nat) : List (String × Nat) :=
  (k, v) :: m.filter (fun e => e.1 ≠ k)

/-- `map.set(k, v)` for the round-set map. -/
def alSetRounds (m : List (String × List Nat)) (k : String) (v : List Nat) :
    List (String × List Nat) :=
  (k, v) :: m.filter (fun e => e.1 ≠ k)

/-- `map.delete(k)` on an association list. -/
def alDel (m : List (String × Nat)) (k : String) : List (String × Nat) :=
  m.filter (fun e => e.1 ≠ k)

/-- `map.has(k)` on an association list. -/
def alMem (m : List (String × Nat)) (k : String) : Bool :=
  m.any (fun e => e.1 == k)

/-- One entry of `responseQueue`: `{discussionId, round, queuedAt}`. -/
structure QItem where
  discussionId : String
  round : Nat
  queuedAt : Nat
deriving DecidableEq, Repr

/-- The per-agent mutable runtime state of `AgentBase` (constructor fields
touched by `respondToTrigger`, `finalizeResponse`, `_drainResponseQueue`,
`_tryProcessQueuedItem`, `_cleanupDiscussion` and `watchDiscussion`).  The
JS `Map`s become association lists, the `responding` `Set` a list of ids,
each watcher `setInterval` handle a numeric id drawn from `nextTimer`. -/
structure AgentState where
  activeCount : Nat := 0
  maxConcurrent : Nat := 5
  maxQueueSize : Nat := 20
  responseQueue : List QItem := []
  responding : List String := []
  respondedRounds : List (String × List Nat) := []
  discussionFailures : List (String × Nat) := []
  localCircuitThreshold : Nat := 5
  localCircuitCooldownMs : Nat := 60000
  localCircuitOpenUntil : List (String × Nat) := []
  watchedDiscussions : List (String × Nat) := []
  discussionLastWatched : List (String × Nat) := []
  discussionTimers : List (String × Nat) := []
  timers : List Nat := []
  pendingRetries : List (String × Nat) := []
  nextTimer : Nat := 0
deriving DecidableEq, Repr

/-- Outcome of the synchronous admission part of `respondToTrigger`: the four
flow-control throws, or lock acquired (normal completion). -/
inductive AdmitOutcome where
  | circuitOpen
  | queued
  | alreadyResponding
  | alreadyAttempted
  | locked
deriving DecidableEq, Repr

/-- The synchronous admission sequence of `AgentBase.respondToTrigger`
(lines 451-516) without the `catch`-path queue drain (which the caller
performs, and which is a no-op when entered from inside
`_drainResponseQueue` thanks to the `drainingResponseQueue` flag):
circuit check, capacity check with FIFO eviction and per-discussion
dedup of the queue, `activeCount` increment, per-discussion `responding`
lock, round dedup; the two `catch`-path outcomes roll the increment back
with `Math.max(0, activeCount - 1)` (truncated subtraction here). -/
def admission (st : AgentState) (d : String) (round : Nat) (now : Nat) :
    AgentState × AdmitOutcome :=
  let openUntil := alGet st.localCircuitOpenUntil d 0
  if openUntil > now then (st, .circuitOpen)
  else
    let st := if openUntil > 0 then
        { st with localCircuitOpenUntil := alDel st.localCircuitOpenUntil d }
      else st
    if st.activeCount ≥ st.maxConcurrent then
      if st.responseQueue.any (fun item => item.discussionId == d) then (st, .queued)
      else
        let q := if st.responseQueue.length ≥ st.maxQueueSize then
            st.responseQueue.drop 1
          else st.responseQueue
        ({ st with responseQueue := q ++ [⟨d, round, now⟩] }, .queued)
    else
      let st := { st with activeCount := st.activeCount + 1 }
      if st.responding.contains d then
        ({ st with activeCount := st.activeCount - 1 }, .alreadyResponding)
      else
        let attempted := alGetRounds st.respondedRounds d
        if attempted.contains round then
          ({ st with activeCount := st.activeCount - 1 }, .alreadyAttempted)
        else
          ({ st with responding := d :: st.responding,
                     respondedRounds := alSetRounds st.respondedRounds d (round :: attempted) },
           .locked)

/-- `AgentBase._cleanupDiscussion`: release the watcher timer and every piece
of per-discussion state, and purge the discussion's queue entries. -/
def cleanupDiscussion (st : AgentState) (d : String) : AgentState :=
  let st :=
    match (st.discussionTimers.find? (fun e => e.1 == d)) with
    | some e =>
      { st with discussionTimers := alDel st.discussionTimers d,
                timers := st.timers.filter (fun t => t ≠ e.2) }
    | none => st
  { st with
      watchedDiscussions := alDel st.watchedDiscussions d,
      discussionLastWatched := alDel st.discussionLastWatched d,
      pendingRetries := alDel st.pendingRetries d,
      respondedRounds := st.respondedRounds.filter (fun e => e.1 ≠ d),
      responding := st.responding.filter (fun x => x ≠ d),
      discussionFailures := alDel st.discussionFailures d,
      localCircuitOpenUntil := alDel st.localCircuitOpenUntil d,
      responseQueue := st.responseQueue.filter (fun item => item.discussionId ≠ d) }

/-- What the filesystem and the turn decision say about a queued or watched
discussion when the runtime re-examines it: the file is gone or the
discussion has ended (→ cleanup in `_tryProcessQueuedItem`), we should not
respond (missing participant or `shouldRespondInRound` null), or we should
respond in a round. -/
inductive PollDecision where
  | cleanup
  | skip
  | respond (round : Nat)

/-- The environment: per discussion id, the poll decision the filesystem
currently induces. -/
def Env : Type := String → PollDecision

/-- `AgentBase._tryProcessQueuedItem`: re-derive the discussion's status and
turn decision, clean up ended/missing discussions, otherwise re-enter
admission (the nested `respondToTrigger`'s own drain call is a no-op here
because `drainingResponseQueue` is set). -/
def tryProcessQueuedItem (env : Env) (now : Nat) (st : AgentState) (item : QItem) :
    AgentState :=
  if item.discussionId = "" then st
  else
    match env item.discussionId with
    | .cleanup => cleanupDiscussion st item.discussionId
    | .skip => st
    | .respond r => (admission st item.discussionId r now).1

/-- The `while (activeCount < maxConcurrent && responseQueue.length > 0)`
loop of `AgentBase._drainResponseQueue`, fuelled: each iteration shifts one
item and re-processes it.  Inside the loop the capacity branch of
`admission` can never push (the loop condition guarantees a free slot), so
the queue shrinks every iteration and `responseQueue.length` fuel is
exact. -/
def drainGo (env : Env) (now : Nat) : Nat → AgentState → AgentState
  | 0, st => st
  | fuel + 1, st =>
    if st.activeCount < st.maxConcurrent then
      match st.responseQueue with
      | [] => st
      | item :: rest =>
        drainGo env now fuel (tryProcessQueuedItem env now { st with responseQueue := rest } item)
    else st

/-- `AgentBase._drainResponseQueue` as entered with the re-entry flag clear. -/
def drainResponseQueue (env : Env) (now : Nat) (st : AgentState) : AgentState :=
  drainGo env now st.responseQueue.length st

/-- `AgentBase.respondToTrigger` as observed from outside: admission, plus the
`catch`-path drain on the two flow-control errors thrown inside the `try`
(`QUEUED` and `LOCAL_CIRCUIT_OPEN` are thrown before the `try`, so they do
not drain). -/
def respondToTrigger (env : Env) (now : Nat) (st : AgentState) (d : String) (round : Nat) :
    AgentState × AdmitOutcome :=
  let (st, outcome) := admission st d round now
  match outcome with
  | .alreadyResponding => (drainResponseQueue env now st, outcome)
  | .alreadyAttempted => (drainResponseQueue env now st, outcome)
  | _ => (st, outcome)

/-- `AgentBase.finalizeResponse`: release the per-discussion lock, decrement
`activeCount` (floored at 0), clear or bump the failure counter (opening
the local circuit at the threshold), then drain while a slot is free. -/
def finalizeResponse (env : Env) (now : Nat) (st : AgentState) (d : String)
    (success : Bool) : AgentState :=
  let st1 : AgentState := { st with responding := st.responding.filter (fun x => x ≠ d),
                                    activeCount := st.activeCount - 1 }
  let st2 : AgentState :=
    if success then
      { st1 with discussionFailures := alDel st1.discussionFailures d,
                 localCircuitOpenUntil := alDel st1.localCircuitOpenUntil d }
    else
      let failures := alGet st1.discussionFailures d 0 + 1
      let st' : AgentState :=
        { st1 with discussionFailures := alSet st1.discussionFailures d failures }
      if failures ≥ st'.localCircuitThreshold then
        { st' with localCircuitOpenUntil :=
                     alSet st'.localCircuitOpenUntil d (now + st'.localCircuitCooldownMs) }
      else st'
  if st2.activeCount < st2.maxConcurrent then drainResponseQueue env now st2 else st2

/-- One externally triggered runtime event: an admission attempt or a
finalize, each under the filesystem view `env` at wall-clock `now`. -/
inductive AgentOp where
  | respond (env : Env) (now : Nat) (d : String) (round : Nat)
  | finalize (env : Env) (now : Nat) (d : String) (success : Bool)

/-- Run a sequence of runtime events. -/
def runOps : List AgentOp → AgentState → AgentState
  | [], st => st
  | op :: ops, st =>
    match op with
    | .respond env now d round => runOps ops (respondToTrigger env now st d round).1
    | .finalize env now d success => runOps ops (finalizeResponse env now st d success)

/-- The C6 resource bounds together with the constructor's guarantee
`maxQueueSize ≥ 1` (`options.maxQueueSize || 20` is never 0). -/
def Bounded (st : AgentState) : Prop :=
  1 ≤ st.maxQueueSize ∧ st.activeCount ≤ st.maxConcurrent ∧
    st.responseQueue.length ≤ st.maxQueueSize

theorem admission_bounded (st : AgentState) (d : String) (round : Nat) (now : Nat)
    (hb : Bounded st) : Bounded (admission st d round now).1 := by
  obtain ⟨h1, h2, h3⟩ := hb
  simp only [Bounded, admission]
  repeat' split
  all_goals refine ⟨h1, ?_, ?_⟩
  all_goals simp_all [List.length_drop]
  all_goals omega

theorem cleanup_bounded (st : AgentState) (d : String) (hb : Bounded st) :
    Bounded (cleanupDiscussion st d) := by
  obtain ⟨h1, h2, h3⟩ := hb
  simp only [Bounded, cleanupDiscussion]
  split <;>
    exact ⟨h1, h2, le_trans (List.length_filter_le _ _) h3⟩

theorem tryProcess_bounded (env : Env) (now : Nat) (st : AgentState) (item : QItem)
    (hb : Bounded st) : Bounded (tryProcessQueuedItem env now st item) := by
  simp only [tryProcessQueuedItem]
  split
  · exact hb
  · split
    · exact cleanup_bounded _ _ hb
    · exact hb
    · exact admission_bounded _ _ _ _ hb

theorem drainGo_bounded (env : Env) (now : Nat) (fuel : Nat) (st : AgentState)
    (hb : Bounded st) : Bounded (drainGo env now fuel st) := by
  induction fuel generalizing st with
  | zero => exact hb
  | succ n ih =>
    simp only [drainGo]
    split
    · split
      · exact hb
      · refine ih _ (tryProcess_bounded _ _ _ _ ?_)
        obtain ⟨h1, h2, h3⟩ := hb
        rename_i hq
        refine ⟨h1, h2, ?_⟩
        simp only
        rw [hq] at h3
        simp only [List.length_cons] at h3
        omega
    · exact hb

theorem respond_bounded (env : Env) (now : Nat) (st : AgentState) (d : String)
    (round : Nat) (hb : Bounded st) : Bounded (respondToTrigger env now st d round).1 := by
  simp only [respondToTrigger]
  have h := admission_bounded st d round now hb
  split <;> first
    | exact drainGo_bounded _ _ _ _ h
    | exact h

theorem finalize_bounded (env : Env) (now : Nat) (st : AgentState) (d : String)
    (success : Bool) (hb : Bounded st) : Bounded (finalizeResponse env now st d success) := by
  obtain ⟨h1, h2, h3⟩ := hb
  have hb' : Bounded { st with responding := st.responding.filter (fun x => x ≠ d),
                               activeCount := st.activeCount - 1 } :=
    ⟨h1, by simp; omega, h3⟩
  simp only [finalizeResponse]
  split <;> rename_i hsucc
  · split
    · exact drainGo_bounded _ _ _ _ ⟨h1, by simp; omega, h3⟩
    · exact ⟨h1, by simp; omega, h3⟩
  · split
    · split
      · exact drainGo_bounded _ _ _ _ ⟨h1, by simp; omega, h3⟩
      · exact ⟨h1, by simp; omega, h3⟩
    · split
      · exact drainGo_bounded _ _ _ _ ⟨h1, by simp; omega, h3⟩
      · exact ⟨h1, by simp; omega, h3⟩

theorem runOps_bounded (ops : List AgentOp) (st : AgentState) (hb : Bounded st) :
    Bounded (runOps ops st) := by
  induction ops generalizing st with
  | nil => exact hb
  | cons op ops ih =>
    cases op with
    | respond env now d round => exact ih _ (respond_bounded env now st d round hb)
    | finalize env now d success => exact ih _ (finalize_bounded env now st d success hb)

/-- C6: across any sequence of admission and finalize events, `activeCount`
never exceeds `maxConcurrent` and the pending queue never exceeds
`maxQueueSize` (the constructor guarantees `maxQueueSize ≥ 1`); moreover at
capacity the admission path deduplicates the queue by discussion id
(an already queued discussion leaves the queue unchanged) and, when the
queue is full, evicts the oldest entry (FIFO head drop) before pushing the
new one. -/
theorem concurrency_and_queue_bounds :
    (∀ (ops : List AgentOp) (st : AgentState),
      1 ≤ st.maxQueueSize → st.activeCount ≤ st.maxConcurrent →
      st.responseQueue.length ≤ st.maxQueueSize →
      (runOps ops st).activeCount ≤ (runOps ops st).maxConcurrent ∧
        (runOps ops st).responseQueue.length ≤ (runOps ops st).maxQueueSize) ∧
    (∀ (st : AgentState) (d : String) (round now : Nat),
      alGet st.localCircuitOpenUntil d 0 ≤ now →
      st.activeCount ≥ st.maxConcurrent →
      st.responseQueue.any (fun item => item.discussionId == d) = true →
      (admission st d round now).1.responseQueue = st.responseQueue) ∧
    (∀ (st : AgentState) (d : String) (round now : Nat),
      alGet st.localCircuitOpenUntil d 0 ≤ now →
      st.activeCount ≥ st.maxConcurrent →
      st.responseQueue.any (fun item => item.discussionId == d) = false →
      st.responseQueue.length ≥ st.maxQueueSize →
      (admission st d round now).1.responseQueue =
        st.responseQueue.drop 1 ++ [⟨d, round, now⟩]) := by
  refine ⟨?_, ?_, ?_⟩
  · intro ops st h1 h2 h3
    have h := runOps_bounded ops st ⟨h1, h2, h3⟩
    exact ⟨h.2.1, h.2.2⟩
  · intro st d round now hc hcap hq
    simp only [admission]
    rw [if_neg (by omega)]
    split <;> rfl
  · intro st d round now hc hcap hq hfull
    simp only [admission]
    rw [if_neg (by omega)]
    split <;> simp only [hq, Bool.false_eq_true, if_false, if_pos hfull]

/-- A saturated runtime: one active slot of one, queue of capacity one
holding one entry. -/
def satState : AgentState :=
  { activeCount := 1, maxConcurrent := 1, maxQueueSize := 1, responseQueue := [⟨"b", 1, 0⟩] }

/-- Witness for C6 at concrete inputs: a saturated one-slot runtime keeps its
bounds across a queueing admission and a finalize; a duplicate id is not
enqueued twice; a full queue evicts its oldest entry before the push. -/
theorem concurrency_and_queue_bounds_witness :
    ((runOps [.respond (fun _ => .skip) 0 "a" 1, .finalize (fun _ => .skip) 0 "a" true]
        satState).activeCount ≤
      (runOps [.respond (fun _ => .skip) 0 "a" 1, .finalize (fun _ => .skip) 0 "a" true]
        satState).maxConcurrent ∧
     (runOps [.respond (fun _ => .skip) 0 "a" 1, .finalize (fun _ => .skip) 0 "a" true]
        satState).responseQueue.length ≤
      (runOps [.respond (fun _ => .skip) 0 "a" 1, .finalize (fun _ => .skip) 0 "a" true]
        satState).maxQueueSize) ∧
    (admission satState "b" 2 5).1.responseQueue = [⟨"b", 1, 0⟩] ∧
    (admission satState "c" 2 5).1.responseQueue = [⟨"c", 2, 5⟩] := by
  refine ⟨?_, ?_, ?_⟩
  · exact concurrency_and_queue_bounds.1
      [.respond (fun _ => .skip) 0 "a" 1, .finalize (fun _ => .skip) 0 "a" true]
      satState (by decide) (by decide) (by decide)
  · exact concurrency_and_queue_bounds.2.1 satState "b" 2 5
      (by decide) (by decide) (by decide)
  · have h := concurrency_and_queue_bounds.2.2 satState "c" 2 5
      (by decide) (by decide) (by decide) (by decide)
    simpa using h

/-- `AgentBase.processDiscussion`: a missing file, a foreign participant
list, an ended discussion or a null turn decision all just return; a
candidate round re-enters admission via `respondToTrigger`. -/
def processDiscussion (env : Env) (now : Nat) (st : AgentState) (d : String) : AgentState :=
  match env d with
  | .cleanup => st
  | .skip => st
  | .respond r => (respondToTrigger env now st d r).1

/-- `AgentBase.watchDiscussion` (lib/agent-base.js 165-189): an id already in
`watchedDiscussions` returns immediately; otherwise record the log's last
`seq`, stamp `discussionLastWatched`, register a fresh watcher timer and
process the discussion once.  `fsmsgs` is the filesystem read
(`discussion.readAll`). -/
def watchDiscussion (env : Env) (fsmsgs : String → List Message) (now : Nat)
    (st : AgentState) (d : String) : AgentState :=
  if alMem st.watchedDiscussions d then st
  else
    let messages := fsmsgs d
    let lastSeq :=
      match messages.getLast? with
      | some m => m.seq
      | none => 0
    let st1 : AgentState :=
      { st with watchedDiscussions := alSet st.watchedDiscussions d lastSeq,
                discussionLastWatched := alSet st.discussionLastWatched d now,
                timers := st.timers ++ [st.nextTimer],
                discussionTimers := alSet st.discussionTimers d st.nextTimer,
                nextTimer := st.nextTimer + 1 }
    processDiscussion env now st1 d

theorem admission_watched (st : AgentState) (e : String) (round now : Nat) :
    (admission st e round now).1.watchedDiscussions = st.watchedDiscussions := by
  simp only [admission]
  repeat' split
  all_goals rfl

theorem alMem_alDel_ne (m : List (String × Nat)) (d e : String) (hne : d ≠ e)
    (h : alMem m d = true) : alMem (alDel m e) d = true := by
  simp only [alMem, alDel, List.any_eq_true] at h ⊢
  obtain ⟨x, hx, hxd⟩ := h
  refine ⟨x, List.mem_filter.mpr ⟨hx, ?_⟩, hxd⟩
  simp only [beq_iff_eq] at hxd
  simp [hxd, hne]

theorem cleanup_watched_ne (st : AgentState) (d e : String) (hne : d ≠ e)
    (h : alMem st.watchedDiscussions d = true) :
    alMem (cleanupDiscussion st e).watchedDiscussions d = true := by
  simp only [cleanupDiscussion]
  split <;> exact alMem_alDel_ne _ _ _ hne h

theorem tryProcess_watched (env : Env) (now : Nat) (st : AgentState) (item : QItem)
    (d : String) (henv : env d ≠ PollDecision.cleanup)
    (h : alMem st.watchedDiscussions d = true) :
    alMem (tryProcessQueuedItem env now st item).watchedDiscussions d = true := by
  simp only [tryProcessQueuedItem]
  split
  · exact h
  · split <;> rename_i hd
    · by_cases he : d = item.discussionId
      · subst he
        exact absurd hd henv
      · exact cleanup_watched_ne st d item.discussionId he h
    · exact h
    · rw [admission_watched]
      exact h

theorem drainGo_watched (env : Env) (now : Nat) (fuel : Nat) (st : AgentState)
    (d : String) (henv : env d ≠ PollDecision.cleanup)
    (h : alMem st.watchedDiscussions d = true) :
    alMem (drainGo env now fuel st).watchedDiscussions d = true := by
  induction fuel generalizing st with
  | zero => exact h
  | succ n ih =>
    simp only [drainGo]
    split
    · split
      · exact h
      · exact ih _ (tryProcess_watched env now _ _ d henv h)
    · exact h

theorem respondToTrigger_watched (env : Env) (now : Nat) (st : AgentState)
    (d e : String) (round : Nat) (henv : env d ≠ PollDecision.cleanup)
    (h : alMem st.watchedDiscussions d = true) :
    alMem (respondToTrigger env now st e round).1.watchedDiscussions d = true := by
  simp only [respondToTrigger]
  have ha : alMem (admission st e round now).1.watchedDiscussions d = true := by
    rw [admission_watched]; exact h
  split <;> first
    | exact drainGo_watched env now _ _ d henv ha
    | exact ha

theorem processDiscussion_watched (env : Env) (now : Nat) (st : AgentState) (d : String)
    (h : alMem st.watchedDiscussions d = true) :
    alMem (processDiscussion env now st d).watchedDiscussions d = true := by
  simp only [processDiscussion]
  split <;> rename_i heq
  · exact h
  · exact h
  · exact respondToTrigger_watched env now st d d _ (by simp [heq]) h

theorem alMem_alSet_self (m : List (String × Nat)) (k : String) (v : Nat) :
    alMem (alSet m k v) k = true := by
  simp [alMem, alSet]

/-- C9: `watchDiscussion` is idempotent — a discussion id already present in
`watchedDiscussions` makes the call return immediately with the entire
runtime state unchanged (no second watcher timer, no rewritten `lastSeq`
or last-watched stamp), and repeating any `watchDiscussion` call is a
no-op, so each watched discussion has at most one watcher timer. -/
theorem watchDiscussion_idempotent :
    (∀ (env : Env) (fsmsgs : String → List Message) (now : Nat) (st : AgentState)
        (d : String), alMem st.watchedDiscussions d = true →
      watchDiscussion env fsmsgs now st d = st) ∧
    (∀ (env : Env) (fsmsgs : String → List Message) (now : Nat) (st : AgentState)
        (d : String),
      watchDiscussion env fsmsgs now (watchDiscussion env fsmsgs now st d) d =
        watchDiscussion env fsmsgs now st d) := by
  have base : ∀ (env : Env) (fsmsgs : String → List Message) (now : Nat)
      (st : AgentState) (d : String), alMem st.watchedDiscussions d = true →
      watchDiscussion env fsmsgs now st d = st := by
    intro env fsmsgs now st d h
    simp only [watchDiscussion, h, if_true]
  refine ⟨base, ?_⟩
  intro env fsmsgs now st d
  by_cases h : alMem st.watchedDiscussions d = true
  · rw [base env fsmsgs now st d h]
    exact base env fsmsgs now st d h
  · apply base
    simp only [watchDiscussion, h, if_false, Bool.false_eq_true]
    exact processDiscussion_watched env now _ d (alMem_alSet_self _ _ _)

/-- Witness for C9: re-watching an already watched discussion changes
nothing. -/
theorem watchDiscussion_idempotent_witness :
    watchDiscussion (fun _ => .skip) (fun _ => []) 7
      { watchedDiscussions := [("1234", 3)] } "1234" =
      { watchedDiscussions := [("1234", 3)] } := by
  exact watchDiscussion_idempotent.1 (fun _ => .skip) (fun _ => []) 7
    { watchedDiscussions := [("1234", 3)] } "1234" (by decide)

/-- The lock file's state as one contending writer sees it (single-writer
world: nobody else creates or deletes the lock during our attempt), plus
the wall clock.  `lockMtime = some t` means the lock file exists with
mtime `t`; `none` means it is absent. -/
structure LockWorld where
  lockMtime : Option Nat
  now : Nat
deriving DecidableEq, Repr

/-- Outcome of `Discussion.acquireFileLock`: the lock was created (holding
it, `lockMtime` now ours) or the deadline error was thrown. -/
inductive LockResult where
  | acquired (w : LockWorld)
  | failed (w : LockWorld)
deriving DecidableEq, Repr

/-- `Discussion.acquireFileLock` (lib/discussion.js 58-91) in the
single-writer world: open-create-exclusive succeeds iff the lock file is
absent (and stamps it with the current time); on `EEXIST`, a lock whose
mtime is strictly more than `staleMs` old is unlinked and the loop
retries immediately; otherwise the deadline `now - start ≥ timeoutMs`
throws, and else the writer sleeps `retryDelayMs` and retries.  The `fuel`
bounds the recursion; every run below supplies enough fuel for the loop to
reach its own exit. -/
def acquireFileLock (timeoutMs retryDelayMs staleMs : Nat) (start : Nat) :
    Nat → LockWorld → LockResult
  | 0, w => .failed w
  | fuel + 1, w =>
    match w.lockMtime with
    | none => .acquired { w with lockMtime := some w.now }
    | some m =>
      if w.now - m > staleMs then
        acquireFileLock timeoutMs retryDelayMs staleMs start fuel { w with lockMtime := none }
      else if w.now - start ≥ timeoutMs then .failed w
      else
        acquireFileLock timeoutMs retryDelayMs staleMs start fuel
          { w with now := w.now + retryDelayMs }

theorem acquire_poll_aux (m start : Nat) :
    ∀ (fuel now : Nat), start ≤ now → now ≤ start + 10000 → (now - start) % 20 = 0 →
    start + 10000 ≤ m + 30000 → 10000 ≤ (now - start) + 20 * (fuel - 1) → 1 ≤ fuel →
    acquireFileLock 10000 20 30000 start fuel ⟨some m, now⟩ =
      .failed ⟨some m, start + 10000⟩ := by
  intro fuel
  induction fuel with
  | zero => intro now _ _ _ _ _ h6; omega
  | succ f ih =>
    intro now h1 h2 h3 h4 h5 _
    simp only [acquireFileLock]
    rw [if_neg (by omega)]
    by_cases hd : now - start ≥ 10000
    · rw [if_pos hd]
      have hnow : now = start + 10000 := by omega
      rw [hnow]
    · rw [if_neg hd]
      exact ih (now + 20) (by omega) (by omega) (by omega) h4 (by omega) (by omega)

/-- C8: with the default parameters (10 s deadline, ~20 ms polling, 30 s
staleness), a lock whose mtime is more than 30 s old is deleted and the
retry immediately acquires; an absent lock is acquired at once; and a lock
that stays fresh through the deadline is respected — the writer polls in
20 ms steps until `now - start ≥ 10000` and then fails with an error,
leaving the foreign lock in place rather than proceeding. -/
theorem lock_acquisition_spec :
    (∀ (now m k : Nat), now - m > 30000 →
      acquireFileLock 10000 20 30000 now (k + 2) ⟨some m, now⟩ =
        .acquired ⟨some now, now⟩) ∧
    (∀ (now k : Nat),
      acquireFileLock 10000 20 30000 now (k + 1) ⟨none, now⟩ =
        .acquired ⟨some now, now⟩) ∧
    (∀ (start m fuel : Nat), start ≤ m + 20000 → 501 ≤ fuel →
      acquireFileLock 10000 20 30000 start fuel ⟨some m, start⟩ =
        .failed ⟨some m, start + 10000⟩) := by
  refine ⟨?_, ?_, ?_⟩
  · intro now m k h
    simp only [acquireFileLock]
    rw [if_pos h]
  · intro now k
    simp only [acquireFileLock]
  · intro start m fuel h1 h2
    exact acquire_poll_aux m start fuel start (Nat.le_refl start) (by omega) (by omega)
      (by omega) (by omega) (by omega)

/-- Witness for C8 at concrete inputs: a 40 s old lock is reclaimed at time
40000; an absent lock is acquired at once; a lock freshly stamped at
50000 makes the acquisition at 50000 fail at 60000 with the lock intact. -/
theorem lock_acquisition_spec_witness :
    acquireFileLock 10000 20 30000 40000 2 ⟨some 0, 40000⟩ = .acquired ⟨some 40000, 40000⟩ ∧
    acquireFileLock 10000 20 30000 5 1 ⟨none, 5⟩ = .acquired ⟨some 5, 5⟩ ∧
    acquireFileLock 10000 20 30000 50000 501 ⟨some 50000, 50000⟩ =
      .failed ⟨some 50000, 60000⟩ := by
  refine ⟨?_, ?_, ?_⟩
  · exact lock_acquisition_spec.1 40000 0 0 (by decide)
  · exact lock_acquisition_spec.2.1 5 0
  · have h := lock_acquisition_spec.2.2 50000 50000 501 (by decide) (by decide)
    simpa using h

end MultiAgent

